import Mathlib

/-!
Shallow embedding of the recommendation feature pipeline of the repository
(`project/utils.py` and `project/data/data_preparation.py`), together with
theorems settling the specification claims about it.

Conventions used throughout:
* Python integers are modelled as `Int` (or `Nat` where the source value is a
  count), Python floats as `ℚ`.
* Quantities of the form `a / Real.sqrt b` (cosine similarities) are
  represented exactly by the pair `(a, b)` with `b > 0`, so that everything
  stays inside `ℚ` and remains computable; two equal pairs denote equal reals.
* Python dictionaries keyed by strings are modelled as insertion-ordered
  association lists.
* Seeded pandas sampling (`Series.sample(n, random_state=seed)`) selects
  POSITIONS determined by the seed and the population length only; we model
  the seeded position choice concretely (a seed-dependent rotation).  Every
  claim settled below depends only on the facts that the chosen positions are
  distinct, in range, and a function of `(seed, length)` alone, which hold for
  the real generator as well.
-/

namespace ThesisPipeline

/-- Embedding of `utils.divide_into_three`.  Python `//` and `%` by the
positive constant 3 coincide with Euclidean division, which is what `/` and
`%` denote on `Int` in Lean. -/
def divide_into_three (n : Int) : Int × Int × Int :=
  let part := n / 3
  let remainder := n % 3
  if remainder = 0 then (part, part, part)
  else if remainder = 1 then (part + 1, part, part)
  else (part + 1, part + 1, part)

/-- C3 (counterexample): the claim quantifies over every integer N, but at
N = -1 Python floor division yields `divide_into_three (-1) = (0, 0, -1)`,
whose third component is negative, so the three components are not all
non-negative. -/
theorem C3_counterexample :
    divide_into_three (-1) = (0, 0, -1) ∧ ¬ (0 ≤ (divide_into_three (-1)).2.2) := by
  decide

/-- Shared arithmetic facts about `divide_into_three` on non-negative
inputs. -/
theorem divide_into_three_spec (n : Int) (hn : 0 ≤ n) :
    0 ≤ (divide_into_three n).1 ∧ 0 ≤ (divide_into_three n).2.1 ∧
    0 ≤ (divide_into_three n).2.2 ∧
    (divide_into_three n).1 + (divide_into_three n).2.1 + (divide_into_three n).2.2 = n ∧
    (divide_into_three n).2.2 ≤ (divide_into_three n).2.1 ∧
    (divide_into_three n).2.1 ≤ (divide_into_three n).1 ∧
    (divide_into_three n).1 ≤ (divide_into_three n).2.2 + 1 := by
  have h3 : n % 3 = 0 ∨ n % 3 = 1 ∨ n % 3 = 2 := by omega
  unfold divide_into_three
  rcases h3 with h | h | h <;> simp only [h] <;> norm_num <;> omega

/-- C3 (amended): for every non-negative integer N, `divide_into_three N`
returns three non-negative integers summing to N, with the remainder assigned
to the lower tiers first (third ≤ second ≤ first) and the first component
never exceeding the third by more than 1. -/
theorem C3_divide_into_three (n : Int) (hn : 0 ≤ n) :
    0 ≤ (divide_into_three n).1 ∧ 0 ≤ (divide_into_three n).2.1 ∧
    0 ≤ (divide_into_three n).2.2 ∧
    (divide_into_three n).1 + (divide_into_three n).2.1 + (divide_into_three n).2.2 = n ∧
    (divide_into_three n).2.2 ≤ (divide_into_three n).2.1 ∧
    (divide_into_three n).2.1 ≤ (divide_into_three n).1 ∧
    (divide_into_three n).1 ≤ (divide_into_three n).2.2 + 1 :=
  divide_into_three_spec n hn

/-- C3 (witness): the amended theorem applied at the concrete input N = 4,
where `divide_into_three 4 = (2, 1, 1)`. -/
theorem C3_witness :
    0 ≤ (divide_into_three 4).1 ∧ 0 ≤ (divide_into_three 4).2.1 ∧
    0 ≤ (divide_into_three 4).2.2 ∧
    (divide_into_three 4).1 + (divide_into_three 4).2.1 + (divide_into_three 4).2.2 = 4 ∧
    (divide_into_three 4).2.2 ≤ (divide_into_three 4).2.1 ∧
    (divide_into_three 4).2.1 ≤ (divide_into_three 4).1 ∧
    (divide_into_three 4).1 ≤ (divide_into_three 4).2.2 + 1 :=
  C3_divide_into_three 4 (by decide)

/-! ## Genre canonicalization: `reformat_dict`

Python string operations are modelled on the character list underlying a
`String`, so that everything reduces inside the kernel. -/

/-- Whitespace characters removed by Python `str.strip()` (the ones that can
occur in the genre data). -/
def isPySpace (c : Char) : Bool :=
  decide (c = ' ') || decide (c = '\t') || decide (c = '\n') || decide (c = '\r')

/-- Python `str.strip()`: drop whitespace from both ends. -/
def stripChars (l : List Char) : List Char :=
  ((l.dropWhile isPySpace).reverse.dropWhile isPySpace).reverse

/-- Python `str.replace(a, b)` for single-character patterns. -/
def replaceChar (a b : Char) (l : List Char) : List Char :=
  l.map (fun c => if c = a then b else c)

/-- Python `str.split(",")`: split on every comma, keeping empty pieces. -/
def splitOnComma (l : List Char) : List (List Char) :=
  l.foldr
    (fun c acc =>
      if c = ',' then [] :: acc
      else
        match acc with
        | [] => [[c]]
        | g :: gs => (c :: g) :: gs)
    [[]]

/-- The atomic-label normalization of `reformat_dict`:
`g.strip().replace(" ", "_").replace("-", "_")`. -/
def normalize_chars (l : List Char) : List Char :=
  replaceChar '-' '_' (replaceChar ' ' '_' (stripChars l))

/-- All canonical labels produced from one raw genre key: split on commas,
then normalize each piece. -/
def canonical_labels (genre : String) : List String :=
  (splitOnComma genre.data).map (fun cs => String.mk (normalize_chars cs))

/-! Python `dict`s with string keys, as insertion-ordered association lists:
`dictSet` overwrites the value in place when the key is present and appends
otherwise, exactly like Python item assignment. -/

/-- Lookup in the association-list model of a Python dict. -/
def dictGet (m : List (String × Int)) (k : String) : Option Int :=
  (m.find? (fun p => decide (p.1 = k))).map (fun p => p.2)

/-- Item assignment in the association-list model of a Python dict. -/
def dictSet (m : List (String × Int)) (k : String) (v : Int) : List (String × Int) :=
  if m.any (fun p => decide (p.1 = k)) then
    m.map (fun p => if p.1 = k then (k, v) else p)
  else m ++ [(k, v)]

/-- Modelled from the spec: `get_categories` is code of this repository that
is not among the provided sources (it is imported by both source files).  The
spec fixes it as a closed, ordered list of 16 genre labels whose order defines
the vector axes; these are the 16 canonical labels of the goodreads genre
vocabulary. -/
def get_categories : List String :=
  ["children", "comics", "graphic", "fantasy", "paranormal", "fiction",
   "history", "historical_fiction", "biography", "mystery", "thriller",
   "crime", "non_fiction", "poetry", "romance", "young_adult"]

/-- One bucket update of `reformat_dict`:
`genres[g] = genres.get(g, 0) + value if value > 0 else 0`
(the conditional expression binds looser than `+` in Python). -/
def update_bucket (gs : List (String × Int)) (value : Int) (g : String) :
    List (String × Int) :=
  dictSet gs g (if value > 0 then (dictGet gs g).getD 0 + value else 0)

/-- Processing of one `(genre, value)` entry of the input dict: update the
bucket of every canonical label obtained from the key. -/
def process_entry (gs : List (String × Int)) (e : String × Int) :
    List (String × Int) :=
  (canonical_labels e.1).foldl (fun gs g => update_bucket gs e.2 g) gs

/-- Embedding of `data_preparation.reformat_dict`: accumulate canonical
buckets over the entries in insertion order, then pad every missing category
of the closed category set with 0. -/
def reformat_dict (d : List (String × Int)) : List (String × Int) :=
  let genres := d.foldl process_entry []
  get_categories.foldl
    (fun gs k => if (dictGet gs k).isSome then gs else dictSet gs k 0) genres

/-! ### Association-list dictionary lemmas -/

theorem find?_map_set_self (m : List (String × Int)) (k : String) (v : Int) :
    (m.map (fun p => if p.1 = k then (k, v) else p)).find? (fun p => decide (p.1 = k)) =
      if m.any (fun p => decide (p.1 = k)) then some (k, v) else none := by
  induction m with
  | nil => rfl
  | cons p m ih =>
    by_cases hp : p.1 = k
    · simp only [List.map_cons, if_pos hp]
      rw [List.find?_cons_of_pos _ (by simp)]
      simp [List.any_cons, hp]
    · simp only [List.map_cons, if_neg hp]
      rw [List.find?_cons_of_neg _ (by simp [hp])]
      rw [ih, List.any_cons, decide_eq_false hp, Bool.false_or]

theorem find?_map_set_ne (m : List (String × Int)) (k k' : String) (v : Int)
    (h : k' ≠ k) :
    (m.map (fun p => if p.1 = k then (k, v) else p)).find? (fun p => decide (p.1 = k')) =
      m.find? (fun p => decide (p.1 = k')) := by
  induction m with
  | nil => rfl
  | cons p m ih =>
    by_cases hp : p.1 = k
    · simp only [List.map_cons, if_pos hp]
      rw [List.find?_cons_of_neg _ (by simp; exact fun hh => h hh.symm),
        List.find?_cons_of_neg _ (by simp [hp]; exact fun hh => h hh.symm)]
      exact ih
    · simp only [List.map_cons, if_neg hp]
      by_cases hk : p.1 = k'
      · rw [List.find?_cons_of_pos _ (by simp [hk]), List.find?_cons_of_pos _ (by simp [hk])]
      · rw [List.find?_cons_of_neg _ (by simp [hk]), List.find?_cons_of_neg _ (by simp [hk])]
        exact ih

theorem dictGet_dictSet_self (m : List (String × Int)) (k : String) (v : Int) :
    dictGet (dictSet m k v) k = some v := by
  unfold dictGet dictSet
  by_cases h : m.any (fun p => decide (p.1 = k)) = true
  · rw [if_pos h, find?_map_set_self, if_pos h]
    rfl
  · rw [if_neg h, List.find?_append]
    have hn : m.find? (fun p => decide (p.1 = k)) = none := by
      rw [List.find?_eq_none]
      intro x hx
      have h' : m.any (fun p => decide (p.1 = k)) = false := by
        cases hb : m.any (fun p => decide (p.1 = k)) with
        | false => rfl
        | true => exact absurd hb h
      exact List.any_eq_false.mp h' x hx
    rw [hn]
    simp [List.find?]

theorem dictGet_dictSet_ne (m : List (String × Int)) (k k' : String) (v : Int)
    (h : k' ≠ k) : dictGet (dictSet m k v) k' = dictGet m k' := by
  unfold dictGet dictSet
  by_cases hany : m.any (fun p => decide (p.1 = k)) = true
  · rw [if_pos hany, find?_map_set_ne _ _ _ _ h]
  · rw [if_neg hany, List.find?_append]
    have hsingle : ([(k, v)] : List (String × Int)).find? (fun p => decide (p.1 = k')) = none := by
      rw [List.find?_cons_of_neg _ (by simp; exact fun hh => h hh.symm)]
      rfl
    rw [hsingle, Option.or_none]

/-- A property preserved by every step of a fold is preserved by the fold. -/
theorem foldl_preserves {α β : Type} (P : α → Prop) (f : α → β → α)
    (hf : ∀ a b, P a → P (f a b)) :
    ∀ (l : List β) (a : α), P a → P (l.foldl f a) := by
  intro l
  induction l with
  | nil => exact fun a h => h
  | cons b l ih => exact fun a h => ih (f a b) (hf a b h)

/-! ### C10: non-negativity of every bucket of `reformat_dict` -/

/-- Every value stored in the dict is non-negative. -/
def NonnegDict (gs : List (String × Int)) : Prop :=
  ∀ k v, dictGet gs k = some v → 0 ≤ v

theorem nonneg_dictSet (gs : List (String × Int)) (k : String) (v : Int)
    (hgs : NonnegDict gs) (hv : 0 ≤ v) : NonnegDict (dictSet gs k v) := by
  intro k' w h
  by_cases hk : k' = k
  · subst hk
    rw [dictGet_dictSet_self] at h
    cases h
    exact hv
  · rw [dictGet_dictSet_ne _ _ _ _ hk] at h
    exact hgs k' w h

theorem nonneg_update_bucket (gs : List (String × Int)) (v : Int) (g : String)
    (hgs : NonnegDict gs) : NonnegDict (update_bucket gs v g) := by
  apply nonneg_dictSet _ _ _ hgs
  by_cases hv : 0 < v
  · rw [if_pos hv]
    rcases hmem : dictGet gs g with _ | w
    · simp only [hmem, Option.getD_none]
      omega
    · simp only [hmem, Option.getD_some]
      have := hgs g w hmem
      omega
  · rw [if_neg hv]

/-- C10: for every input mapping, every value of the canonical genre-count
mapping returned by `reformat_dict` is non-negative — negative source counts
are never subtracted from a bucket, so no bucket can go below zero. -/
theorem C10_reformat_dict_nonneg (d : List (String × Int)) (k : String) (v : Int)
    (h : dictGet (reformat_dict d) k = some v) : 0 ≤ v := by
  have hnil : NonnegDict [] := by
    intro k' w hw
    simp [dictGet] at hw
  have h1 : NonnegDict (d.foldl process_entry []) := by
    refine foldl_preserves NonnegDict process_entry ?_ d [] hnil
    intro gs e hgs
    unfold process_entry
    exact foldl_preserves NonnegDict _ (fun gs g hg => nonneg_update_bucket gs e.2 g hg)
      (canonical_labels e.1) gs hgs
  have h2 : NonnegDict (reformat_dict d) := by
    unfold reformat_dict
    refine foldl_preserves NonnegDict _ ?_ get_categories _ h1
    intro gs kk hgs
    by_cases hs : (dictGet gs kk).isSome
    · rw [if_pos hs]
      exact hgs
    · rw [if_neg hs]
      exact nonneg_dictSet gs kk 0 hgs le_rfl
  exact h2 k v h

/-- C10 (witness): the theorem applied to the concrete mapping with a single
positive entry. -/
theorem C10_witness :
    dictGet (reformat_dict [("a", 5)]) "a" = some 5 ∧ (0 : Int) ≤ 5 :=
  ⟨by decide, C10_reformat_dict_nonneg [("a", 5)] "a" 5 (by decide)⟩

/-! ### C1: effect of negative counts in `reformat_dict` -/

/-- With a non-positive count the bucket update writes a literal 0. -/
theorem update_bucket_nonpos (gs : List (String × Int)) (v : Int) (g : String)
    (hv : v ≤ 0) : update_bucket gs v g = dictSet gs g 0 := by
  unfold update_bucket
  rw [if_neg (by omega)]

/-- A bucket already holding 0 still holds 0 after a fold that writes 0 to a
sequence of buckets. -/
theorem foldl_set_zero_keep (ls : List String) (gs : List (String × Int))
    (g : String) (h : dictGet gs g = some 0) :
    dictGet (ls.foldl (fun gs g' => dictSet gs g' 0) gs) g = some 0 := by
  induction ls generalizing gs with
  | nil => exact h
  | cons a ls ih =>
    rw [List.foldl_cons]
    apply ih
    by_cases hga : g = a
    · subst hga
      exact dictGet_dictSet_self gs g 0
    · rw [dictGet_dictSet_ne _ _ _ _ hga]
      exact h

/-- After a fold that writes 0 to every bucket of `ls`, any bucket of `ls`
holds 0. -/
theorem foldl_set_zero_mem (ls : List String) (gs : List (String × Int))
    (g : String) (hg : g ∈ ls) :
    dictGet (ls.foldl (fun gs g' => dictSet gs g' 0) gs) g = some 0 := by
  induction ls generalizing gs with
  | nil => cases hg
  | cons a ls ih =>
    rw [List.foldl_cons]
    rcases List.mem_cons.mp hg with h | h
    · subst h
      exact foldl_set_zero_keep ls _ g (dictGet_dictSet_self gs g 0)
    · exact ih _ h

/-- Buckets not named by the processed labels are untouched. -/
theorem process_fold_not_mem (ls : List String) (v : Int)
    (gs : List (String × Int)) (g : String) (hg : g ∉ ls) :
    dictGet (ls.foldl (fun gs g' => update_bucket gs v g') gs) g = dictGet gs g := by
  induction ls generalizing gs with
  | nil => rfl
  | cons a ls ih =>
    have hga : g ≠ a := fun h => hg (h ▸ List.mem_cons_self a ls)
    rw [List.foldl_cons, ih _ (fun h => hg (List.mem_cons_of_mem a h))]
    unfold update_bucket
    exact dictGet_dictSet_ne _ _ _ _ hga

/-- Processing one entry of the raw mapping zeroes every canonical bucket of
its key when its count is non-positive. -/
theorem process_entry_nonpos (gs : List (String × Int)) (key : String) (v : Int)
    (g : String) (hv : v ≤ 0) (hg : g ∈ canonical_labels key) :
    dictGet (process_entry gs (key, v)) g = some 0 := by
  unfold process_entry
  simp only [update_bucket_nonpos _ _ _ hv]
  exact foldl_set_zero_mem _ _ _ hg

/-- A bucket holding 0 still holds 0 after processing an entry that does not
contribute positively to it. -/
theorem process_entry_keep_zero (gs : List (String × Int)) (e : String × Int)
    (g : String) (h : dictGet gs g = some 0)
    (he : 0 < e.2 → g ∉ canonical_labels e.1) :
    dictGet (process_entry gs e) g = some 0 := by
  by_cases hv : 0 < e.2
  · unfold process_entry
    rw [process_fold_not_mem _ _ _ _ (he hv)]
    exact h
  · unfold process_entry
    simp only [update_bucket_nonpos _ _ _ (by omega : e.2 ≤ 0)]
    exact foldl_set_zero_keep _ _ _ h

/-- A bucket holding 0 still holds 0 after the category padding step. -/
theorem pad_keep_zero (cats : List String) (gs : List (String × Int)) (g : String)
    (h : dictGet gs g = some 0) :
    dictGet (cats.foldl
      (fun gs k => if (dictGet gs k).isSome then gs else dictSet gs k 0) gs) g = some 0 := by
  induction cats generalizing gs with
  | nil => exact h
  | cons a cs ih =>
    rw [List.foldl_cons]
    apply ih
    by_cases hs : (dictGet gs a).isSome
    · rw [if_pos hs]
      exact h
    · rw [if_neg hs]
      by_cases hga : g = a
      · subst hga
        rw [h] at hs
        simp at hs
      · rw [dictGet_dictSet_ne _ _ _ _ hga]
        exact h

/-- A property preserved by every step over the elements of `l` is preserved
by folding over `l`. -/
theorem foldl_preserves_mem {α β : Type} (P : α → Prop) (f : α → β → α)
    (l : List β) (hf : ∀ a, ∀ b ∈ l, P a → P (f a b)) :
    ∀ a, P a → P (l.foldl f a) := by
  induction l with
  | nil => exact fun a h => h
  | cons b l ih =>
    intro a h
    exact ih (fun a' b' hb' h' => hf a' b' (List.mem_cons_of_mem b hb') h') (f a b)
      (hf a b (List.mem_cons_self b l) h)

/-- C1 (counterexample): the mapping [("a", -1), ("x, a", 5)] has a negative
count for the label "a", yet the canonical bucket "a" is 5, not 0, in the
output: the later positive contribution of the entry ("x, a", 5) to the same
bucket overrides the zeroing, so the claimed order-independence fails. -/
theorem C1_counterexample :
    dictGet (reformat_dict [("a", -1), ("x, a", 5)]) "a" ≠ some 0 := by
  decide

/-- C1 (amended): an entry with a non-positive count zeroes every canonical
bucket derived from its label at the moment it is processed, discarding all
earlier contributions; such a bucket is 0 in the final output provided no
later entry contributes a positive count to the same bucket. -/
theorem C1_reformat_dict_negative (pre post : List (String × Int)) (L : String)
    (v : Int) (g : String) (hv : v ≤ 0) (hg : g ∈ canonical_labels L)
    (hpost : ∀ e ∈ post, 0 < e.2 → g ∉ canonical_labels e.1) :
    dictGet (reformat_dict (pre ++ (L, v) :: post)) g = some 0 := by
  unfold reformat_dict
  apply pad_keep_zero
  rw [List.foldl_append, List.foldl_cons]
  refine foldl_preserves_mem (fun gs => dictGet gs g = some 0) process_entry post
    (fun gs e he h => process_entry_keep_zero gs e g h (fun hpos => hpost e he hpos)) _ ?_
  exact process_entry_nonpos _ _ _ _ hv hg

/-- C1 (witness): the amended theorem applied to the concrete mapping
[("x, a", 7), ("a", -1), ("b", 2)]: the bucket "a" is zeroed by the negative
entry and the later entry ("b", 2) does not touch it, so the output holds 0. -/
theorem C1_witness :
    ((-1 : Int) ≤ 0 ∧ "a" ∈ canonical_labels "a") ∧
      dictGet (reformat_dict [("x, a", 7), ("a", -1), ("b", 2)]) "a" = some 0 :=
  ⟨⟨by decide, by decide⟩,
    C1_reformat_dict_negative [("x, a", 7)] [("b", 2)] "a" (-1) "a" (by decide)
      (by decide) (by decide)⟩

/-! ## Item priority: `calculate_priority`

The Python argument `priority: str | float | None` is modelled as a tagged
value.  Python truthiness: `None`, the float `0.0` and the empty string are
falsy; the source's first branch `if not priority: return 0` is reproduced by
the corresponding tests below.  The Bernoulli draw `np.random.random() < p`
of the float branch is modelled by an explicit `rand` parameter holding the
value drawn from the (unseeded, global) generator. -/

inductive PriorityArg where
  | null : PriorityArg
  | prob : ℚ → PriorityArg
  | cat : String → PriorityArg
deriving DecidableEq

/-- Value of `np.max` of the item's genre vector (vectors are non-empty, length 16). -/
def max_val : List ℚ → ℚ
  | [] => 0
  | x :: xs => xs.foldl max x

/-- Indices `np.where(row["vector"] == max_value)[1]`: the column indices holding the
maximum. -/
def argmax_indices (v : List ℚ) : List Nat :=
  (List.range v.length).filter (fun i => decide (v.getD i 0 = max_val v))

/-- Embedding of `data_preparation.calculate_priority`.  The source has no
final `else`: a truthy value that is neither a float nor a known category
name falls off the end of the function, which in Python returns `None` —
modelled by `none`.  All other branches return a float, modelled by `some`. -/
def calculate_priority (vector : List ℚ) (priority : PriorityArg) (rand : ℚ) :
    Option ℚ :=
  match priority with
  | .null => some 0
  | .prob p => if p = 0 then some 0 else some (if rand < p then 1 else 0)
  | .cat s =>
    if s = "" then some 0
    else if s ∈ get_categories then
      some (if List.indexOf s get_categories ∈ argmax_indices vector ∧
          ¬ (∀ x ∈ vector, x = 0) then 1 else 0)
    else none

/-- C5 (evaluation at the failing input): for the priority strategy "bogus" —
truthy, not a float, not a category name — `calculate_priority` silently
returns Python `None` (modelled by `none`) instead of signalling an
invalid-configuration error: the source simply has no branch for this case. -/
theorem C5_invalid_priority_returns_none :
    calculate_priority (List.replicate 16 (0 : ℚ)) (.cat "bogus") 0 = none := by
  decide

/-- C6: with a category-name strategy, priority is 1 iff that category's axis
holds the (tied-)maximum of the item's genre vector and the vector is not
all-zero, and 0 otherwise (in particular an all-zero vector yields 0 although
the tied-max condition trivially holds). -/
theorem C6_calculate_priority_cat (v : List ℚ) (s : String) (rand : ℚ)
    (hs : s ∈ get_categories) (hv : v.length = 16) :
    calculate_priority v (.cat s) rand =
      some (if v.getD (List.indexOf s get_categories) 0 = max_val v ∧
          ¬ (∀ x ∈ v, x = 0) then 1 else 0) ∧
    (calculate_priority v (.cat s) rand = some 1 ↔
      (v.getD (List.indexOf s get_categories) 0 = max_val v ∧ ¬ (∀ x ∈ v, x = 0))) := by
  have hne : s ≠ "" := by
    intro h
    subst h
    revert hs
    decide
  have hidx : List.indexOf s get_categories < v.length := by
    rw [hv]
    have h16 : get_categories.length = 16 := by decide
    rw [← h16]
    exact List.indexOf_lt_length.mpr hs
  have hmem : (List.indexOf s get_categories ∈ argmax_indices v) ↔
      (v.getD (List.indexOf s get_categories) 0 = max_val v) := by
    simp [argmax_indices, List.mem_filter, List.mem_range, hidx]
  have key : calculate_priority v (.cat s) rand =
      some (if v.getD (List.indexOf s get_categories) 0 = max_val v ∧
        ¬ (∀ x ∈ v, x = 0) then 1 else 0) := by
    simp only [calculate_priority]
    rw [if_neg hne, if_pos hs]
    congr 1
    exact if_congr (and_congr_left fun _ => hmem) rfl rfl
  refine ⟨key, ?_⟩
  rw [key]
  by_cases hc : v.getD (List.indexOf s get_categories) 0 = max_val v ∧ ¬ (∀ x ∈ v, x = 0)
  · simp [hc]
  · simp only [if_neg hc]
    constructor
    · intro h
      exact absurd (Option.some.inj h) (by norm_num)
    · intro h
      exact absurd h hc

/-- C6 (witness): the theorem applied to the category "children" (axis 0) and
the concrete vector (5, 0, ..., 0), whose maximum sits on axis 0 and which is
not all-zero, so the priority is 1. -/
theorem C6_witness :
    calculate_priority [5, 0, 0, 0, 0, 0, 0, 0, 0, 0, 0, 0, 0, 0, 0, 0]
        (.cat "children") 0 =
      some (if ([5, 0, 0, 0, 0, 0, 0, 0, 0, 0, 0, 0, 0, 0, 0, 0] : List ℚ).getD
          (List.indexOf "children" get_categories) 0 =
          max_val [5, 0, 0, 0, 0, 0, 0, 0, 0, 0, 0, 0, 0, 0, 0, 0] ∧
          ¬ (∀ x ∈ ([5, 0, 0, 0, 0, 0, 0, 0, 0, 0, 0, 0, 0, 0, 0, 0] : List ℚ), x = 0)
        then 1 else 0) ∧
    (calculate_priority [5, 0, 0, 0, 0, 0, 0, 0, 0, 0, 0, 0, 0, 0, 0, 0]
        (.cat "children") 0 = some 1 ↔
      (([5, 0, 0, 0, 0, 0, 0, 0, 0, 0, 0, 0, 0, 0, 0, 0] : List ℚ).getD
          (List.indexOf "children" get_categories) 0 =
          max_val [5, 0, 0, 0, 0, 0, 0, 0, 0, 0, 0, 0, 0, 0, 0, 0] ∧
        ¬ (∀ x ∈ ([5, 0, 0, 0, 0, 0, 0, 0, 0, 0, 0, 0, 0, 0, 0, 0] : List ℚ), x = 0))) :=
  C6_calculate_priority_cat [5, 0, 0, 0, 0, 0, 0, 0, 0, 0, 0, 0, 0, 0, 0, 0]
    "children" 0 (by decide) (by decide)

/-! ## Stratified user sampling: `process_df_users_raw`

An interaction row, with the columns the sampler reads (the remaining columns
of the raw feed — rating, is_reviewed — are carried along unchanged by the
source and are irrelevant to every claim about the sampler). -/

structure Row where
  user_id : Nat
  book_id : Nat
  is_read : Nat
deriving DecidableEq, Repr

/-- Pandas `drop_duplicates()`: keep the first occurrence of each value, in
row order.  `seen` accumulates values already emitted. -/
def dedupFirstAux (seen : List Nat) : List Nat → List Nat
  | [] => []
  | x :: xs =>
    if decide (x ∈ seen) then dedupFirstAux seen xs
    else x :: dedupFirstAux (x :: seen) xs

def dedupFirst (l : List Nat) : List Nat := dedupFirstAux [] l

/-- Model of the position choice of pandas
`Series.sample(n=n, random_state=seed)`: the seeded generator chooses `n`
distinct POSITIONS, depending only on `(seed, length)`.  The concrete choice
(a rotation by the seed) stands in for the Mersenne-Twister permutation; every
theorem below relies only on the positions being distinct, in range, and a
function of `(seed, length)` alone, which the real generator guarantees. -/
def sample_positions (seed n len : Nat) : List Nat :=
  (((List.range len).map (fun i => (i + seed) % len)).take n)

/-- Model of pandas `Series.sample(n=n, random_state=seed)`: positional
selection without replacement; requesting more elements than the population
holds raises an error (pandas raises `ValueError`). -/
def sample {α : Type} (seed n : Nat) (xs : List α) : Except String (List α) :=
  if n ≤ xs.length then
    Except.ok ((sample_positions seed n xs.length).filterMap (fun i => xs[i]?))
  else Except.error "size exceeds population"

instance {ε α : Type} [DecidableEq ε] [DecidableEq α] : DecidableEq (Except ε α) :=
  fun x y =>
    match x, y with
    | .error a, .error b =>
      if h : a = b then .isTrue (by rw [h]) else .isFalse (by intro hh; cases hh; exact h rfl)
    | .ok a, .ok b =>
      if h : a = b then .isTrue (by rw [h]) else .isFalse (by intro hh; cases hh; exact h rfl)
    | .error _, .ok _ => .isFalse (by intro hh; cases hh)
    | .ok _, .error _ => .isFalse (by intro hh; cases hh)

/-- The `book_count` of a user: the number of its read rows
(`df[df.is_read == 1].groupby("user_id")["book_id"].count()`). -/
def book_count (df : List Row) (u : Nat) : Nat :=
  (df.filter (fun r => decide (r.user_id = u) && decide (r.is_read = 1))).length

/-- Users appearing in the read-only subset (the groupby keys). -/
def read_users (df : List Row) : List Nat :=
  dedupFirst ((df.filter (fun r => decide (r.is_read = 1))).map (fun r => r.user_id))

/-- The `user_ids` list: users whose book count does not exceed the top threshold. -/
def eligible_users (df : List Row) (t2 : Nat) : List Nat :=
  (read_users df).filter (fun u => decide (book_count df u ≤ t2))

/-- The `filtered_df` table: rows of eligible users, in original row order. -/
def filtered_df (df : List Row) (t2 : Nat) : List Row :=
  df.filter (fun r => decide (r.user_id ∈ eligible_users df t2))

/-- A tier's candidate pool: user ids of the filtered rows satisfying the
tier's book-count condition, deduplicated keeping first occurrences
(`...["user_id"].drop_duplicates()`). -/
def tier_pool (df : List Row) (t2 : Nat) (cond : Nat → Bool) : List Nat :=
  dedupFirst
    (((filtered_df df t2).filter (fun r => cond (book_count df r.user_id))).map
      (fun r => r.user_id))

def low_pool (df : List Row) (th : Nat × Nat × Nat) : List Nat :=
  tier_pool df th.2.2 (fun c => decide (c ≤ th.1))

def mid_pool (df : List Row) (th : Nat × Nat × Nat) : List Nat :=
  tier_pool df th.2.2 (fun c => decide (c ≤ th.2.1) && decide (th.1 < c))

def high_pool (df : List Row) (th : Nat × Nat × Nat) : List Nat :=
  tier_pool df th.2.2 (fun c => decide (th.2.1 < c))

/-- Python `round` (round half to even), as applied to
`len(shuffled_users) * ignorant_proportion`. -/
def round_half_even (q : ℚ) : Int :=
  let f : Int := Int.floor q
  let frac : ℚ := q - f
  if frac < 1 / 2 then f
  else if 1 / 2 < frac then f + 1
  else if f % 2 = 0 then f else f + 1

/-- The ignorant-flag overlay of one tier's rows: shuffle the distinct users
(`sample(frac=1, random_state=seed)`, a seeded permutation, modelled with the
same positional generator), mark the first `round(len * proportion)` of the
shuffle as ignorant and the rest as not; with a falsy proportion every user
is marked not-ignorant. -/
def add_ignorance (seed : Nat) (p : ℚ) (rows : List Row) : List (Row × Bool) :=
  if p ≠ 0 then
    let uu := dedupFirst (rows.map (fun r => r.user_id))
    let shuffled := (sample_positions seed uu.length uu.length).filterMap
      (fun i => uu[i]?)
    let half := (round_half_even ((uu.length : ℚ) * p)).toNat
    rows.map (fun r => (r, decide (r.user_id ∈ shuffled.take half)))
  else rows.map (fun r => (r, false))

/-- Embedding of `data_preparation.process_df_users_raw`: filter to eligible
users, split the target size into three tier sizes, sample each tier's pool
with the seed, keep the rows of sampled users per tier, add the ignorant
flags, concatenate low ++ mid ++ high. -/
def process_df_users_raw (df : List Row) (n_users : Nat) (seed : Nat)
    (th : Nat × Nat × Nat) (p : ℚ) : Except String (List (Row × Bool)) := do
  let fdf := filtered_df df th.2.2
  let d := divide_into_three (n_users : Int)
  let lowIds ← sample seed d.1.toNat (low_pool df th)
  let midIds ← sample seed d.2.1.toNat (mid_pool df th)
  let highIds ← sample seed d.2.2.toNat (high_pool df th)
  let low_df := fdf.filter (fun r => decide (r.user_id ∈ lowIds))
  let mid_df := fdf.filter (fun r => decide (r.user_id ∈ midIds))
  let high_df := fdf.filter (fun r => decide (r.user_id ∈ highIds))
  Except.ok (add_ignorance seed p low_df ++ add_ignorance seed p mid_df ++
    add_ignorance seed p high_df)

/-- C2 (counterexample): two inputs holding the same rows — the second is the
first with its first two rows swapped, hence the same eligible population —
produce DIFFERENT sampled user sets under the same seed: with thresholds
(1, 2, 3) and target 3, the low pool is (1, 2) in the first run and (2, 1) in
the second, and the seeded positional draw picks user 2 in the first run but
user 1 in the second.  Sampling is positional, so the result is not
independent of row insertion order. -/
theorem C2_counterexample :
    List.Perm
      [Row.mk 1 10 1, Row.mk 2 20 1, Row.mk 3 30 1, Row.mk 3 31 1,
        Row.mk 4 40 1, Row.mk 4 41 1, Row.mk 4 42 1]
      [Row.mk 2 20 1, Row.mk 1 10 1, Row.mk 3 30 1, Row.mk 3 31 1,
        Row.mk 4 40 1, Row.mk 4 41 1, Row.mk 4 42 1] ∧
    process_df_users_raw
        [Row.mk 1 10 1, Row.mk 2 20 1, Row.mk 3 30 1, Row.mk 3 31 1,
          Row.mk 4 40 1, Row.mk 4 41 1, Row.mk 4 42 1] 3 1 (1, 2, 3) 0 ≠
      process_df_users_raw
        [Row.mk 2 20 1, Row.mk 1 10 1, Row.mk 3 30 1, Row.mk 3 31 1,
          Row.mk 4 40 1, Row.mk 4 41 1, Row.mk 4 42 1] 3 1 (1, 2, 3) 0 :=
  ⟨List.Perm.swap (Row.mk 2 20 1) (Row.mk 1 10 1) _, by decide⟩

/-- C2 (amended): two runs of the sampler with the same seed and the same
input rows in the same order produce identical sampled user sets and
identical ignorant flags — the embedded pipeline is a deterministic function
of `(rows, n, seed, thresholds, proportion)`, mirroring the determinism of
the seeded pandas generator.  Independence of row order does NOT hold (see
the counterexample): the seeded draw selects positions, so permuting the
rows permutes the candidate pools and changes which users are selected. -/
theorem C2_process_deterministic (df df' : List Row) (n seed n' seed' : Nat)
    (th : Nat × Nat × Nat) (p : ℚ) (hdf : df = df') (hn : n = n')
    (hseed : seed = seed') :
    process_df_users_raw df n seed th p = process_df_users_raw df' n' seed' th p := by
  rw [hdf, hn, hseed]

/-- C2 (witness): determinism at the concrete input of the counterexample. -/
theorem C2_witness :
    process_df_users_raw
        [Row.mk 1 10 1, Row.mk 2 20 1, Row.mk 3 30 1, Row.mk 3 31 1,
          Row.mk 4 40 1, Row.mk 4 41 1, Row.mk 4 42 1] 3 1 (1, 2, 3) 0 =
      process_df_users_raw
        [Row.mk 1 10 1, Row.mk 2 20 1, Row.mk 3 30 1, Row.mk 3 31 1,
          Row.mk 4 40 1, Row.mk 4 41 1, Row.mk 4 42 1] 3 1 (1, 2, 3) 0 :=
  C2_process_deterministic _ _ 3 1 3 1 (1, 2, 3) 0 rfl rfl rfl

/-! ### C8: the three tier samples partition the requested population -/

theorem mem_sample_positions (seed n len i : Nat)
    (h : i ∈ sample_positions seed n len) : i < len := by
  unfold sample_positions at h
  have h1 := List.mem_of_mem_take h
  rcases List.mem_map.mp h1 with ⟨j, hj, rfl⟩
  have hlen : 0 < len := by
    rcases Nat.eq_zero_or_pos len with h0 | h0
    · subst h0
      simp [List.range_zero] at hj
    · exact h0
  exact Nat.mod_lt _ hlen

theorem nodup_sample_positions (seed n len : Nat) :
    (sample_positions seed n len).Nodup := by
  unfold sample_positions
  apply List.Sublist.nodup (List.take_sublist _ _)
  apply List.Nodup.map_on _ (List.nodup_range len)
  intro i hi j hj hij
  have hi' := List.mem_range.mp hi
  have hj' := List.mem_range.mp hj
  have h2 : i % len = j % len := Nat.ModEq.add_right_cancel' seed hij
  rwa [Nat.mod_eq_of_lt hi', Nat.mod_eq_of_lt hj'] at h2

theorem length_sample_positions (seed n len : Nat) (h : n ≤ len) :
    (sample_positions seed n len).length = n := by
  unfold sample_positions
  rw [List.length_take, List.length_map, List.length_range]
  omega

theorem sample_ok {α : Type} (seed n : Nat) (xs l : List α)
    (h : sample seed n xs = Except.ok l) :
    l = (sample_positions seed n xs.length).filterMap (fun i => xs[i]?) ∧
      n ≤ xs.length := by
  unfold sample at h
  by_cases hle : n ≤ xs.length
  · rw [if_pos hle] at h
    injection h with h1
    exact ⟨h1.symm, hle⟩
  · rw [if_neg hle] at h
    exact Except.noConfusion h

theorem filterMap_getElem_length {α : Type} (xs : List α) :
    ∀ ps : List Nat, (∀ i ∈ ps, i < xs.length) →
      (ps.filterMap (fun i => xs[i]?)).length = ps.length := by
  intro ps
  induction ps with
  | nil => intro _; rfl
  | cons i ps ih =>
    intro hall
    have hi : i < xs.length := hall i (List.mem_cons_self i ps)
    rw [List.filterMap_cons_some (List.getElem?_eq_getElem hi), List.length_cons,
      ih (fun j hj => hall j (List.mem_cons_of_mem i hj)), List.length_cons]

theorem sample_ok_length {α : Type} (seed n : Nat) (xs l : List α)
    (h : sample seed n xs = Except.ok l) : l.length = n := by
  obtain ⟨rfl, hle⟩ := sample_ok seed n xs l h
  rw [filterMap_getElem_length xs _ (fun i hi => mem_sample_positions _ _ _ _ hi),
    length_sample_positions _ _ _ hle]

theorem sample_ok_subset {α : Type} (seed n : Nat) (xs l : List α)
    (h : sample seed n xs = Except.ok l) : ∀ x ∈ l, x ∈ xs := by
  obtain ⟨rfl, _⟩ := sample_ok seed n xs l h
  intro x hx
  rcases List.mem_filterMap.mp hx with ⟨i, _, hsome⟩
  exact List.getElem?_mem hsome

theorem nodup_filterMap_getElem {α : Type} (xs : List α) (hxs : xs.Nodup) :
    ∀ ps : List Nat, ps.Nodup → (∀ i ∈ ps, i < xs.length) →
      (ps.filterMap (fun i => xs[i]?)).Nodup := by
  intro ps
  induction ps with
  | nil => intro _ _; exact List.nodup_nil
  | cons i ps ih =>
    intro hnd hall
    have hi : i < xs.length := hall i (List.mem_cons_self i ps)
    rw [List.filterMap_cons_some (List.getElem?_eq_getElem hi), List.nodup_cons]
    rcases List.nodup_cons.mp hnd with ⟨hips, hndps⟩
    refine ⟨fun hmem => ?_, ih hndps (fun j hj => hall j (List.mem_cons_of_mem i hj))⟩
    rcases List.mem_filterMap.mp hmem with ⟨j, hj, hsome⟩
    have hjlen : j < xs.length := hall j (List.mem_cons_of_mem i hj)
    rw [List.getElem?_eq_getElem hjlen] at hsome
    have hij : i = j :=
      (List.Nodup.getElem_inj_iff hxs).mp (Option.some.inj hsome).symm
    exact hips (hij ▸ hj)

theorem sample_ok_nodup {α : Type} (seed n : Nat) (xs l : List α)
    (hxs : xs.Nodup) (h : sample seed n xs = Except.ok l) : l.Nodup := by
  obtain ⟨rfl, _⟩ := sample_ok seed n xs l h
  exact nodup_filterMap_getElem xs hxs _ (nodup_sample_positions seed n xs.length)
    (fun i hi => mem_sample_positions _ _ _ _ hi)

theorem mem_dedupFirstAux (x : Nat) :
    ∀ (l seen : List Nat), x ∈ dedupFirstAux seen l ↔ (x ∈ l ∧ x ∉ seen) := by
  intro l
  induction l with
  | nil =>
    intro seen
    simp [dedupFirstAux]
  | cons a l ih =>
    intro seen
    by_cases ha : a ∈ seen
    · rw [dedupFirstAux, if_pos (by simpa using ha), ih seen]
      constructor
      · rintro ⟨hx, hs⟩
        exact ⟨List.mem_cons_of_mem a hx, hs⟩
      · rintro ⟨hx, hs⟩
        rcases List.mem_cons.mp hx with rfl | hx
        · exact absurd ha hs
        · exact ⟨hx, hs⟩
    · rw [dedupFirstAux, if_neg (by simpa using ha)]
      constructor
      · intro hx
        rcases List.mem_cons.mp hx with rfl | hx
        · exact ⟨List.mem_cons_self x l, ha⟩
        · have h2 := (ih (a :: seen)).mp hx
          exact ⟨List.mem_cons_of_mem a h2.1,
            fun hs => h2.2 (List.mem_cons_of_mem a hs)⟩
      · rintro ⟨hx, hs⟩
        rcases List.mem_cons.mp hx with rfl | hx
        · exact List.mem_cons_self x _
        · by_cases hxa : x = a
          · subst hxa
            exact List.mem_cons_self x _
          · refine List.mem_cons_of_mem a ((ih (a :: seen)).mpr ⟨hx, fun hmem => ?_⟩)
            rcases List.mem_cons.mp hmem with h | h
            · exact hxa h
            · exact hs h

theorem mem_dedupFirst (x : Nat) (l : List Nat) : x ∈ dedupFirst l ↔ x ∈ l := by
  unfold dedupFirst
  rw [mem_dedupFirstAux]
  simp

theorem nodup_dedupFirstAux : ∀ (l seen : List Nat), (dedupFirstAux seen l).Nodup := by
  intro l
  induction l with
  | nil => intro seen; exact List.nodup_nil
  | cons a l ih =>
    intro seen
    rw [dedupFirstAux]
    by_cases ha : a ∈ seen
    · rw [if_pos (by simpa using ha)]
      exact ih seen
    · rw [if_neg (by simpa using ha), List.nodup_cons]
      refine ⟨fun hmem => ?_, ih (a :: seen)⟩
      exact ((mem_dedupFirstAux a l (a :: seen)).mp hmem).2 (List.mem_cons_self a seen)

theorem nodup_dedupFirst (l : List Nat) : (dedupFirst l).Nodup :=
  nodup_dedupFirstAux l []

/-- Membership in a tier pool forces the tier's book-count condition and the
top-threshold eligibility bound. -/
theorem mem_tier_pool (df : List Row) (t2 : Nat) (cond : Nat → Bool) (u : Nat)
    (h : u ∈ tier_pool df t2 cond) :
    cond (book_count df u) = true ∧ book_count df u ≤ t2 := by
  unfold tier_pool at h
  have h1 := ((mem_dedupFirst u _).mp h)
  rcases List.mem_map.mp h1 with ⟨r, hr, rfl⟩
  rcases List.mem_filter.mp hr with ⟨hrf, hcond⟩
  refine ⟨hcond, ?_⟩
  rcases List.mem_filter.mp hrf with ⟨_, helig⟩
  have h2 : r.user_id ∈ eligible_users df t2 := by
    simpa using helig
  rcases List.mem_filter.mp h2 with ⟨_, hle⟩
  simpa using hle

theorem nodup_tier_pool (df : List Row) (t2 : Nat) (cond : Nat → Bool) :
    (tier_pool df t2 cond).Nodup :=
  nodup_dedupFirst _

/-- The three tier sizes recombine to the requested total. -/
theorem divide_into_three_toNat_sum (n : Nat) :
    (divide_into_three (n : Int)).1.toNat + (divide_into_three (n : Int)).2.1.toNat +
      (divide_into_three (n : Int)).2.2.toNat = n := by
  have h := divide_into_three_spec (n : Int) (by positivity)
  omega

/-- C8: given that the three seeded tier draws succeed, every low-sampled
user has book_count ≤ t0, every mid-sampled user satisfies
t0 < book_count ≤ t1, every high-sampled user satisfies t1 < book_count,
every sampled user satisfies book_count ≤ t2 (users above t2 are excluded
from the candidate pools before sampling), the concatenated sample has no
duplicate user (no user appears in more than one tier's sample), the number
of distinct sampled users is exactly the requested N, and any draw whose
requested size exceeds its eligible population signals the
size-exceeds-population error instead of returning a sample.  The hypothesis
t0 ≤ t1 is the spec's ascending-thresholds precondition (with non-ascending
thresholds the low and high conditions would overlap). -/
theorem C8_stratified_sampling (df : List Row) (n_users seed : Nat)
    (th : Nat × Nat × Nat) (L M H : List Nat) (hth : th.1 ≤ th.2.1)
    (hL : sample seed (divide_into_three (n_users : Int)).1.toNat (low_pool df th) =
      Except.ok L)
    (hM : sample seed (divide_into_three (n_users : Int)).2.1.toNat (mid_pool df th) =
      Except.ok M)
    (hH : sample seed (divide_into_three (n_users : Int)).2.2.toNat (high_pool df th) =
      Except.ok H) :
    (∀ u ∈ L, book_count df u ≤ th.1) ∧
    (∀ u ∈ M, th.1 < book_count df u ∧ book_count df u ≤ th.2.1) ∧
    (∀ u ∈ H, th.2.1 < book_count df u) ∧
    (∀ u ∈ L ++ M ++ H, book_count df u ≤ th.2.2) ∧
    (L ++ M ++ H).Nodup ∧
    (L ++ M ++ H).length = n_users ∧
    (∀ (s n : Nat) (pool : List Nat), pool.length < n →
      sample s n pool = Except.error "size exceeds population") := by
  have hLsub := sample_ok_subset _ _ _ _ hL
  have hMsub := sample_ok_subset _ _ _ _ hM
  have hHsub := sample_ok_subset _ _ _ _ hH
  have hLpool : ∀ u ∈ L, book_count df u ≤ th.1 ∧ book_count df u ≤ th.2.2 := by
    intro u hu
    have h := mem_tier_pool df th.2.2 _ u (hLsub u hu)
    exact ⟨by simpa using h.1, h.2⟩
  have hMpool : ∀ u ∈ M,
      (th.1 < book_count df u ∧ book_count df u ≤ th.2.1) ∧ book_count df u ≤ th.2.2 := by
    intro u hu
    have h := mem_tier_pool df th.2.2 _ u (hMsub u hu)
    have h1 := h.1
    rw [Bool.and_eq_true] at h1
    exact ⟨⟨by simpa using h1.2, by simpa using h1.1⟩, h.2⟩
  have hHpool : ∀ u ∈ H, th.2.1 < book_count df u ∧ book_count df u ≤ th.2.2 := by
    intro u hu
    have h := mem_tier_pool df th.2.2 _ u (hHsub u hu)
    exact ⟨by simpa using h.1, h.2⟩
  refine ⟨fun u hu => (hLpool u hu).1, fun u hu => (hMpool u hu).1,
    fun u hu => (hHpool u hu).1, ?_, ?_, ?_, ?_⟩
  · intro u hu
    rcases List.mem_append.mp hu with h1 | h1
    · rcases List.mem_append.mp h1 with h2 | h2
      · exact (hLpool u h2).2
      · exact (hMpool u h2).2
    · exact (hHpool u h1).2
  · have hLnd := sample_ok_nodup _ _ _ _ (nodup_tier_pool df th.2.2 _) hL
    have hMnd := sample_ok_nodup _ _ _ _ (nodup_tier_pool df th.2.2 _) hM
    have hHnd := sample_ok_nodup _ _ _ _ (nodup_tier_pool df th.2.2 _) hH
    rw [List.nodup_append]
    refine ⟨?_, hHnd, ?_⟩
    · rw [List.nodup_append]
      refine ⟨hLnd, hMnd, fun u hu hu' => ?_⟩
      have h1 := (hLpool u hu).1
      have h2 := (hMpool u hu').1
      omega
    · intro u hu hu'
      have h2 := (hHpool u hu').1
      rcases List.mem_append.mp hu with h1 | h1
      · have h3 := (hLpool u h1).1
        omega
      · have h3 := (hMpool u h1).1
        omega
  · rw [List.length_append, List.length_append,
      sample_ok_length _ _ _ _ hL, sample_ok_length _ _ _ _ hM,
      sample_ok_length _ _ _ _ hH]
    exact divide_into_three_toNat_sum n_users
  · intro s n pool hlt
    unfold sample
    rw [if_neg (by omega)]

/-- C8 (witness): the theorem applied to a concrete population with
thresholds (1, 2, 3) and target 3: the tier draws succeed with samples
(2), (3), (4), which are pairwise distinct, total 3, and respect the tier
bounds. -/
theorem C8_witness :
    (∀ u ∈ [2],
      book_count
        [Row.mk 1 10 1, Row.mk 2 20 1, Row.mk 3 30 1, Row.mk 3 31 1,
          Row.mk 4 40 1, Row.mk 4 41 1, Row.mk 4 42 1] u ≤ 1) ∧
    (∀ u ∈ [3],
      1 < book_count
        [Row.mk 1 10 1, Row.mk 2 20 1, Row.mk 3 30 1, Row.mk 3 31 1,
          Row.mk 4 40 1, Row.mk 4 41 1, Row.mk 4 42 1] u ∧
      book_count
        [Row.mk 1 10 1, Row.mk 2 20 1, Row.mk 3 30 1, Row.mk 3 31 1,
          Row.mk 4 40 1, Row.mk 4 41 1, Row.mk 4 42 1] u ≤ 2) ∧
    (∀ u ∈ [4],
      2 < book_count
        [Row.mk 1 10 1, Row.mk 2 20 1, Row.mk 3 30 1, Row.mk 3 31 1,
          Row.mk 4 40 1, Row.mk 4 41 1, Row.mk 4 42 1] u) ∧
    (∀ u ∈ [2] ++ [3] ++ [4],
      book_count
        [Row.mk 1 10 1, Row.mk 2 20 1, Row.mk 3 30 1, Row.mk 3 31 1,
          Row.mk 4 40 1, Row.mk 4 41 1, Row.mk 4 42 1] u ≤ 3) ∧
    ([2] ++ [3] ++ [4] : List Nat).Nodup ∧
    ([2] ++ [3] ++ [4] : List Nat).length = 3 ∧
    (∀ (s n : Nat) (pool : List Nat), pool.length < n →
      sample s n pool = Except.error "size exceeds population") :=
  C8_stratified_sampling
    [Row.mk 1 10 1, Row.mk 2 20 1, Row.mk 3 30 1, Row.mk 3 31 1,
      Row.mk 4 40 1, Row.mk 4 41 1, Row.mk 4 42 1]
    3 1 (1, 2, 3) [2] [3] [4] (by decide) (by decide) (by decide) (by decide)

/-! ## Read probabilities: `get_users_df` (lines 237-256) -/

/-- Python `round(x, 4)`: round to 4 decimal places, half to even.  (CPython
rounds the binary double; on the exact rationals both sides of the claims use
this same exact rounding, so the binary representation detail is
irrelevant to the stated equalities.) -/
def round4 (q : ℚ) : ℚ := ((round_half_even (q * 10000) : ℚ) / 10000)

/-- Insertion step of an ascending sort of user ids (pandas `groupby` sorts
its keys). -/
def insertNatAsc (x : Nat) : List Nat → List Nat
  | [] => [x]
  | y :: ys => if x ≤ y then x :: y :: ys else y :: insertNatAsc x ys

def sortNatAsc (l : List Nat) : List Nat := l.foldr insertNatAsc []

/-- The groupby keys of the users aggregation: the distinct user ids, in
ascending order. -/
def users_of (df : List Row) : List Nat :=
  sortNatAsc (dedupFirst (df.map (fun r => r.user_id)))

/-- The per-user `is_read` aggregate (`"is_read": "sum"`). -/
def is_read_sum (df : List Row) (u : Nat) : Nat :=
  ((df.filter (fun r => decide (r.user_id = u))).map (fun r => r.is_read)).sum

/-- The read-probability column of `get_users_df`: the three tier-midpoint
averages divided by the step count and rounded to 4 decimals, assigned per
user by the `np.where` chain on the user's summed `is_read` against the same
thresholds used for tiering. -/
def get_users_read_proba (df : List Row) (th : Nat × Nat × Nat) (steps : Nat) :
    List (Nat × ℚ) :=
  let low_readers_average : ℚ := (th.1 : ℚ) / 2
  let mid_readers_average : ℚ := ((th.2.1 : ℚ) - (th.1 : ℚ)) / 2 + (th.1 : ℚ)
  let high_readers_average : ℚ := ((th.2.2 : ℚ) - (th.2.1 : ℚ)) / 2 + (th.2.1 : ℚ)
  let low_readers_proba := round4 (low_readers_average / (steps : ℚ))
  let mid_readers_proba := round4 (mid_readers_average / (steps : ℚ))
  let high_readers_proba := round4 (high_readers_average / (steps : ℚ))
  (users_of df).map (fun u =>
    (u, if is_read_sum df u ≤ th.1 then low_readers_proba
        else if is_read_sum df u ≤ th.2.1 then mid_readers_proba
        else high_readers_proba))

/-- The claim's formula for the read probability, stated from the spec's
words: round(m / steps, 4) where m is the tier midpoint t0/2, (t1-t0)/2+t0
or (t2-t1)/2+t1 selected by the user's is_read total against the tiering
thresholds.  Kept as a separate definition so the theorem compares the
embedded code against the spec's formula. -/
def spec_read_proba (m : Nat) (th : Nat × Nat × Nat) (steps : Nat) : ℚ :=
  round4 ((if m ≤ th.1 then (th.1 : ℚ) / 2
    else if m ≤ th.2.1 then ((th.2.1 : ℚ) - (th.1 : ℚ)) / 2 + (th.1 : ℚ)
    else ((th.2.2 : ℚ) - (th.2.1 : ℚ)) / 2 + (th.2.1 : ℚ)) / (steps : ℚ))

/-- C9: for every user of the aggregated users table, the read_proba column
holds exactly round(m / steps, 4) with m the tier midpoint selected by the
user's is_read total against the tiering thresholds. -/
theorem C9_read_proba (df : List Row) (th : Nat × Nat × Nat) (steps : Nat)
    (u : Nat) (hu : u ∈ users_of df) :
    (u, spec_read_proba (is_read_sum df u) th steps) ∈
      get_users_read_proba df th steps := by
  unfold get_users_read_proba spec_read_proba
  apply List.mem_map.mpr
  refine ⟨u, hu, ?_⟩
  by_cases h1 : is_read_sum df u ≤ th.1
  · simp [h1]
  · by_cases h2 : is_read_sum df u ≤ th.2.1
    · simp [h1, h2]
    · simp [h1, h2]

/-- C9 (witness): the theorem at a concrete table: one user with is_read
total 1, thresholds (1, 2, 3), steps 10; the low midpoint is 0.5 and the
stored probability is round(0.5/10, 4) = 0.05. -/
theorem C9_witness :
    (1, spec_read_proba (is_read_sum [Row.mk 1 10 1] 1) (1, 2, 3) 10) ∈
      get_users_read_proba [Row.mk 1 10 1] (1, 2, 3) 10 :=
  C9_read_proba [Row.mk 1 10 1] (1, 2, 3) 10 1 (by decide)

/-! ## Similarity engine: `matrix_cosine_similarity`

Genre vectors carry rational entries; a cosine similarity a / sqrt b
(a = dot product, b = product of the squared norms, b > 0) is represented
exactly by the pair (a, b), so the development stays computable; equal pairs
denote equal real values. -/

def dot (u v : List ℚ) : ℚ := (List.zipWith (fun a b => a * b) u v).sum

def norm_sq (v : List ℚ) : ℚ := (v.map (fun x => x * x)).sum

/-- One entry of the numpy similarity matrix.  The source divides each row by
its norm WITHOUT a zero guard: a zero-norm row turns into 0/0 = NaN entries,
and every dot product involving a NaN is NaN, so the (i, j) entry is NaN
exactly when the i-th reference or the j-th comparison vector has zero norm.
`none` models NaN; a defined entry holds the exact cosine value as the pair
(dot, product of squared norms). -/
def sim_entry (u v : List ℚ) : Option (ℚ × ℚ) :=
  if norm_sq u = 0 ∨ norm_sq v = 0 then none
  else some (dot u v, norm_sq u * norm_sq v)

/-- Exact comparison a / sqrt b < c / sqrt d of two defined similarity values
(b, d > 0), on the pair representation. -/
def pair_lt (p q : ℚ × ℚ) : Bool :=
  if p.1 < 0 then (if 0 ≤ q.1 then true else decide (q.1 * q.1 * p.2 < p.1 * p.1 * q.2))
  else (if q.1 ≤ 0 then false else decide (p.1 * p.1 * q.2 < q.1 * q.1 * p.2))

/-- IEEE ordering with NaN: every comparison involving NaN is false. -/
def opt_lt (x y : Option (ℚ × ℚ)) : Bool :=
  match x, y with
  | some p, some q => pair_lt p q
  | _, _ => false

/-- Python `sorted(items, key=value, reverse=True)`: a stable descending sort
by score, modelled as insertion sort over the IEEE comparison (no settled
claim depends on the order among ties or NaNs). -/
def insert_desc (x : Nat × Option (ℚ × ℚ)) :
    List (Nat × Option (ℚ × ℚ)) → List (Nat × Option (ℚ × ℚ))
  | [] => [x]
  | y :: ys => if opt_lt x.2 y.2 then y :: insert_desc x ys else x :: y :: ys

def sort_desc (l : List (Nat × Option (ℚ × ℚ))) : List (Nat × Option (ℚ × ℚ)) :=
  l.foldr insert_desc []

/-- Embedding of `data_preparation.matrix_cosine_similarity`: for each
reference vector, the per-comparison similarity entries (indexed by position
in the comparison table), sorted descending by score and truncated to the
top n. -/
def matrix_cosine_similarity (ref cmp : List (List ℚ)) (n : Nat) :
    List (List (Nat × Option (ℚ × ℚ))) :=
  ref.map (fun u =>
    (sort_desc (cmp.enum.map (fun jv => (jv.1, sim_entry u jv.2)))).take n)

/-- C4 (evaluation at the failing input): a zero-norm (all-zero) reference
vector makes the similarity against a perfectly ordinary comparison vector
undefined (NaN, modelled by `none`), and that undefined value appears in the
returned per-reference mapping — the division is unguarded, exactly as the
spec's open question says. -/
theorem C4_zero_norm_nan :
    matrix_cosine_similarity [[0, 0, 0, 0, 0, 0, 0, 0, 0, 0, 0, 0, 0, 0, 0, 0]]
      [[1, 0, 0, 0, 0, 0, 0, 0, 0, 0, 0, 0, 0, 0, 0, 0]] 50 = [[(0, none)]] := by
  have hu : norm_sq [0, 0, 0, 0, 0, 0, 0, 0, 0, 0, 0, 0, 0, 0, 0, 0] = 0 := by
    norm_num [norm_sq]
  have h : sim_entry ([0, 0, 0, 0, 0, 0, 0, 0, 0, 0, 0, 0, 0, 0, 0, 0] : List ℚ)
      [1, 0, 0, 0, 0, 0, 0, 0, 0, 0, 0, 0, 0, 0, 0, 0] = none := by
    simp only [sim_entry]
    rw [if_pos (Or.inl hu)]
  simp [matrix_cosine_similarity, List.enum, List.enumFrom, sort_desc, insert_desc, h]

/-! ## Book scorer: `calculate_book_score` -/

/-- An aggregated item row: indexed by book id, carrying the priority and the
genre vector (the aggregate count columns play no role in scoring). -/
structure Item where
  book_id : Nat
  priority : ℚ
  vector : List ℚ
deriving DecidableEq, Repr

/-- Value of `sklearn.metrics.pairwise.cosine_similarity` of two vectors, as the exact
pair (a, b) denoting a / sqrt b.  Unlike the numpy path above, sklearn's
normalizer replaces zero norms by 1 (zero rows stay zero), so a zero vector
yields similarity 0 rather than NaN. -/
def sk_cosine (u v : List ℚ) : ℚ × ℚ :=
  (dot u v,
    (if norm_sq u = 0 then 1 else norm_sq u) *
      (if norm_sq v = 0 then 1 else norm_sq v))

/-- Embedding of `data_preparation.calculate_book_score` for one user row:
for each book of the user's interacted list, look the book up in the items
table (`df_items[df_items.index == book_id].item()` raises on a missing book,
modelled by `Except.error`); the score is the priority itself when the
priority is positive, else the sklearn cosine similarity of the user and
item vectors.  Scores are pairs (a, b) denoting a / sqrt b; a priority p is
the exact value p = (p, 1). -/
def calculate_book_score (user_vector : List ℚ) (book_ids : List Nat)
    (df_items : List Item) : Except String (List (Nat × (ℚ × ℚ))) :=
  match book_ids with
  | [] => Except.ok []
  | b :: bs =>
    match df_items.find? (fun it => decide (it.book_id = b)) with
    | none => Except.error "book missing from items table"
    | some it => do
      let rest ← calculate_book_score user_vector bs df_items
      Except.ok ((b, if 0 < it.priority then (it.priority, 1)
        else sk_cosine user_vector it.vector) :: rest)

/-- C7: whenever the book scorer succeeds, every scored book was found in the
items table, its score equals the book's priority whenever that priority is
positive — independently of the vectors — and equals the cosine similarity
of the user's and the item's genre vectors otherwise. -/
theorem C7_book_score (user_vector : List ℚ) (book_ids : List Nat)
    (df_items : List Item) (out : List (Nat × (ℚ × ℚ)))
    (h : calculate_book_score user_vector book_ids df_items = Except.ok out) :
    ∀ b s, (b, s) ∈ out →
      ∃ it, df_items.find? (fun it => decide (it.book_id = b)) = some it ∧
        (0 < it.priority → s = (it.priority, 1)) ∧
        (¬ 0 < it.priority → s = sk_cosine user_vector it.vector) := by
  induction book_ids generalizing out with
  | nil =>
    rw [calculate_book_score] at h
    injection h with h1
    subst h1
    intro b s hbs
    exact absurd hbs (List.not_mem_nil _)
  | cons b0 bs ih =>
    rw [calculate_book_score] at h
    cases hfind : df_items.find? (fun it => decide (it.book_id = b0)) with
    | none =>
      rw [hfind] at h
      exact Except.noConfusion h
    | some it0 =>
      rw [hfind] at h
      cases hrest : calculate_book_score user_vector bs df_items with
      | error e =>
        rw [hrest] at h
        exact Except.noConfusion h
      | ok rest =>
        rw [hrest] at h
        injection h with h1
        subst h1
        intro b s hbs
        rcases List.mem_cons.mp hbs with heq | hmem
        · cases heq
          refine ⟨it0, hfind, fun hp => ?_, fun hp => ?_⟩
          · rw [if_pos hp]
          · rw [if_neg hp]
        · exact ih rest hrest b s hmem

/-- C7 (witness): user vector (1, 0, ..., 0); book 7 has priority 1 and an
orthogonal vector — its score is the priority 1 despite similarity 0 — and
book 8 has priority 0 and the user's own vector — its score is the cosine
similarity (1, 1), the exact value 1. -/
theorem C7_witness :
    ∃ it,
      (([Item.mk 7 1 [0, 1, 0, 0, 0, 0, 0, 0, 0, 0, 0, 0, 0, 0, 0, 0],
          Item.mk 8 0 [1, 0, 0, 0, 0, 0, 0, 0, 0, 0, 0, 0, 0, 0, 0, 0]] :
        List Item).find? (fun it => decide (it.book_id = 7))) = some it ∧
      (0 < it.priority → ((1 : ℚ), (1 : ℚ)) = (it.priority, 1)) ∧
      (¬ 0 < it.priority →
        ((1 : ℚ), (1 : ℚ)) =
          sk_cosine [1, 0, 0, 0, 0, 0, 0, 0, 0, 0, 0, 0, 0, 0, 0, 0] it.vector) :=
  C7_book_score [1, 0, 0, 0, 0, 0, 0, 0, 0, 0, 0, 0, 0, 0, 0, 0] [7, 8]
    [Item.mk 7 1 [0, 1, 0, 0, 0, 0, 0, 0, 0, 0, 0, 0, 0, 0, 0, 0],
      Item.mk 8 0 [1, 0, 0, 0, 0, 0, 0, 0, 0, 0, 0, 0, 0, 0, 0, 0]]
    [(7, (1, 1)), (8, (1, 1))]
    (by norm_num [calculate_book_score, List.find?, sk_cosine, dot, norm_sq,
      Bind.bind, Except.bind])
    7 (1, 1) (List.mem_cons_self _ _)

end ThesisPipeline
